import Mathlib

/-!
Verification of the mini-judge submission engine.

Shallow embedding of the judging pipeline: the status model and severity
table (`app/services/judge.py`), output truncation and normalization, the
per-test-case executor result classification (`app/services/executor.py`),
the verdict aggregation loop of `process_judge_task_direct`, the resource
limits installed in the child pre-exec hook, the HTTP rendezvous timeout
branch (`app/api/v1/endpoints/judge.py`) and the lost-task recovery scan
(`app/workers/manager.py`).  Machine floats of the source are modelled as
rationals, Python strings as Lean `String`/`List Char`.
-/

namespace MiniJudge

/-- `JudgeStatus` from `app/models/schemas.py` (a Python `str` enum). -/
inductive JudgeStatus where
  | pending
  | running
  | accepted
  | wrong_answer
  | time_limit_exceeded
  | memory_limit_exceeded
  | runtime_error
  | compilation_error
  | system_error
deriving DecidableEq, Repr

/-- The string value of each enum member (`JudgeStatus` is a `str` enum). -/
def JudgeStatus.value : JudgeStatus → String
  | .pending => "pending"
  | .running => "running"
  | .accepted => "accepted"
  | .wrong_answer => "wrong_answer"
  | .time_limit_exceeded => "time_limit_exceeded"
  | .memory_limit_exceeded => "memory_limit_exceeded"
  | .runtime_error => "runtime_error"
  | .compilation_error => "compilation_error"
  | .system_error => "system_error"

/-- `STATUS_PRIORITY` dict of `app/services/judge.py` (lines 28-36).
`none` models absence of the key from the dict (PENDING / RUNNING are
not listed there). -/
def STATUS_PRIORITY : JudgeStatus → Option Nat
  | .system_error => some 1
  | .compilation_error => some 2
  | .runtime_error => some 3
  | .time_limit_exceeded => some 4
  | .memory_limit_exceeded => some 5
  | .wrong_answer => some 6
  | .accepted => some 7
  | _ => none

/-- Python `STATUS_PRIORITY.get(s, d)`. -/
def statusPriorityGet (s : JudgeStatus) (d : Nat) : Nat :=
  (STATUS_PRIORITY s).getD d

/-- A status that appears in `STATUS_PRIORITY`, i.e. one of the seven
final verdict statuses. -/
def isFinalStatus (s : JudgeStatus) : Bool :=
  (STATUS_PRIORITY s).isSome

/-- `MAX_TEST_CASE_RESULTS` (`app/services/judge.py` line 37). -/
def MAX_TEST_CASE_RESULTS : Nat := 3

/- ------------------------------------------------------------------ -/
/- Python string primitives used by the judge, over `List Char`.       -/
/- ------------------------------------------------------------------ -/

/-- ASCII whitespace recognized by Python's `str.strip()` (the judge only
ever strips program output, where these are the whitespace characters in
play). -/
def pyIsSpace (c : Char) : Bool :=
  c = ' ' || c = '\t' || c = '\n' || c = '\r' || c = '\x0b' || c = '\x0c'

/-- Python `str.strip()`: drop leading and trailing whitespace. -/
def stripChars (l : List Char) : List Char :=
  ((l.dropWhile pyIsSpace).reverse.dropWhile pyIsSpace).reverse

/-- The loop `while output.endswith("\n"): output = output[:-1]` of
`_normalize_output` (`app/services/judge.py` lines 223-224): removes all
trailing newline characters. -/
def dropTrailingNl (l : List Char) : List Char :=
  (l.reverse.dropWhile (· = '\n')).reverse

/-- Python `str.replace(pat, repl)`: replace non-overlapping occurrences
left to right.  Fuel-indexed so that the kernel can evaluate it; the fuel
is the length of the scanned list, and at least one character is consumed
whenever a (nonempty) pattern matches. -/
def replaceAux (pat repl : List Char) : Nat → List Char → List Char
  | _, [] => []
  | 0, l => l
  | Nat.succ fuel, c :: rest =>
    if pat.isPrefixOf (c :: rest) && !pat.isEmpty then
      repl ++ replaceAux pat repl fuel ((c :: rest).drop pat.length)
    else
      c :: replaceAux pat repl fuel rest

/-- Python `s.replace(pat, repl)` on strings (for nonempty `pat`). -/
def pyReplace (s pat repl : String) : String :=
  ⟨replaceAux pat.data repl.data s.data.length s.data⟩

/-- Python `str.split(sep)` for a single-character separator: the judge
splits only on `"\n"`. -/
def splitOnCharAux (sep : Char) : List Char → List Char → List (List Char)
  | [], acc => [acc.reverse]
  | c :: rest, acc =>
    if c = sep then acc.reverse :: splitOnCharAux sep rest []
    else splitOnCharAux sep rest (c :: acc)

def splitOnChar (sep : Char) (l : List Char) : List (List Char) :=
  splitOnCharAux sep l []

/-- Python `"\n".join(lines)`. -/
def joinNl : List (List Char) → List Char
  | [] => []
  | [l] => l
  | l :: ls => l ++ '\n' :: joinNl ls

/-- `truncate_output` (`app/services/executor.py` lines 12-16 and
`app/services/judge.py` lines 40-44, identical): outputs no longer than
`max_length = 256` pass through; longer ones keep the first and last
`256 // 2 = 128` characters around a marker. -/
def truncate_output (output : String) : String :=
  if output.length ≤ 256 then output
  else
    String.mk (output.data.take 128) ++ "[... truncated ...]"
      ++ String.mk (output.data.drop (output.data.length - 128))

/-- `_normalize_output` (`app/services/judge.py` lines 216-226): drop
trailing newlines, strip, normalize CRLF / CR to LF, split into lines,
strip each line, drop empty lines, rejoin. -/
def _normalize_output (output : String) : String :=
  let l0 := dropTrailingNl output.data
  let s1 := stripChars l0
  let s2 := replaceAux ['\r', '\n'] ['\n'] s1.length s1
  let s3 := replaceAux ['\r'] ['\n'] s2.length s2
  let lines := splitOnChar '\n' s3
  String.mk (joinNl ((lines.map stripChars).filter (fun line => !line.isEmpty)))

/- ------------------------------------------------------------------ -/
/- Data model (`app/models/schemas.py`).                               -/
/- ------------------------------------------------------------------ -/

/-- `Language` enum. -/
inductive Language where
  | python
  | cpp
  | c
deriving DecidableEq, Repr

/-- `JudgeMode` enum. -/
inductive JudgeMode where
  | leetcode
  | acm
  | fullcode
  | execution
deriving DecidableEq, Repr

/-- `JudgeTestCase`.  The claims verified here exercise string test data
(`input: str`, `expected` compared as a string by `_normalize_output`). -/
structure JudgeTestCase where
  input : String
  expected : String
deriving DecidableEq, Repr

/-- `Submission` (`app/models/schemas.py` lines 42-51).  Times are in
seconds, memory in MB, as the field comments state. -/
structure Submission where
  code : String
  language : Language
  mode : JudgeMode
  test_cases : List JudgeTestCase
  time_limit : Option Int
  memory_limit : Option Int
  task_id : Option String
  entry_point : Option String
  security_check : Bool
deriving DecidableEq, Repr

/-- Constructing a `Submission` without explicit limits: pydantic fills
the declared field defaults `time_limit = 1` and `memory_limit = 256`
(`app/models/schemas.py` lines 47-48) and generates a fresh uuid
`task_id`; the uuid is passed in here. -/
def Submission.withDefaults (code : String) (language : Language) (mode : JudgeMode)
    (test_cases : List JudgeTestCase) (task_id : String) : Submission :=
  { code := code, language := language, mode := mode, test_cases := test_cases,
    time_limit := some 1, memory_limit := some 256, task_id := some task_id,
    entry_point := none, security_check := true }

/-- `TestCaseResult` (`app/models/schemas.py` lines 54-60). -/
structure TestCaseResult where
  status : JudgeStatus
  execution_time : Option ℚ
  memory_usage : Option ℕ
  error_message : Option String
  expected_output : Option String
  actual_output : Option String
deriving DecidableEq, Repr

/-- Shape of the `{"passed": …, "total": …}` metadata dictionary the spec
ascribes to the verdict. -/
structure Metadata where
  passed : Nat
  total : Nat
deriving DecidableEq, Repr

/-- `JudgeResult` (`app/models/schemas.py` lines 63-70), also the shape of
the `JudgeResponse` objects `process_judge_task_direct` returns.  Every
optional field defaults to `None`; in particular `metadata`. -/
structure JudgeResult where
  status : JudgeStatus
  execution_time : Option ℚ
  memory_usage : Option ℕ
  error_message : Option String
  test_case_results : Option (List TestCaseResult)
  task_id : Option String
  metadata : Option Metadata
deriving DecidableEq, Repr

/- ------------------------------------------------------------------ -/
/- Executor (`app/services/executor.py`).                              -/
/- ------------------------------------------------------------------ -/

/-- `ExecutionResult` (`app/services/executor.py` lines 19-32):
`execution_time` in milliseconds, `memory_usage` in KB. -/
structure ExecutionResult where
  status : JudgeStatus
  execution_time : ℚ
  memory_usage : ℕ
  output : String
  error : String
deriving DecidableEq, Repr

/-- Configured settings (`app/core/config.py`). -/
def MAX_PROCESSES : Nat := 4

def MAX_OUTPUT_SIZE : Nat := 16 * 1024 * 1024

def MAX_LATENCY : Nat := 180

def MAX_TASK_EXECUTION_TIME : Nat := 150

/-- The OS resources touched by the sandbox pre-exec hooks. -/
inductive Rlimit where
  | cpu
  | addressSpace
  | dataSegment
  | nproc
  | fsize
deriving DecidableEq, Repr

/-- Python `int(q)` for a rational: truncation toward zero. -/
def pyInt (q : ℚ) : ℤ :=
  Int.tdiv q.num q.den

/-- `set_limits` (`app/services/executor.py` lines 79-92), the
`preexec_fn` installed for every test-case child process: the list of
`(resource, limit)` pairs it passes to `resource.setrlimit` (soft = hard
for each). -/
def set_limits (time_limit_sec : ℚ) (memory_limit_bytes : ℕ) : List (Rlimit × ℤ) :=
  [(Rlimit.cpu, pyInt time_limit_sec + 1),
   (Rlimit.addressSpace, (memory_limit_bytes : ℤ)),
   (Rlimit.nproc, (MAX_PROCESSES : ℤ)),
   (Rlimit.fsize, (MAX_OUTPUT_SIZE : ℤ))]

/-- `reliability_guard` (`app/services/utils.py` lines 57-70), the limit
block of the pre-exec setup used on the leetcode in-process path: the
`(resource, limit)` pairs it passes to `resource.setrlimit`. -/
def reliability_guard (time_limit_sec : ℚ) (memory_limit_bytes : ℕ) : List (Rlimit × ℤ) :=
  [(Rlimit.cpu, pyInt time_limit_sec + 1),
   (Rlimit.dataSegment, (memory_limit_bytes : ℤ)),
   (Rlimit.addressSpace, (memory_limit_bytes : ℤ)),
   (Rlimit.nproc, (MAX_PROCESSES : ℤ)),
   (Rlimit.fsize, (MAX_OUTPUT_SIZE : ℤ))]

/-- The `asyncio.wait_for` timeout on `process.communicate` in
`_execute_with_limits` (`app/services/executor.py` line 116):
`time_limit_sec * 1.5`. -/
def communicateTimeout (time_limit_sec : ℚ) : ℚ :=
  time_limit_sec * (3 / 2)

/-- The completed-process branch of `_execute_with_limits`
(`app/services/executor.py` lines 132-150): truncate the decoded stdout
and stderr, then classify by exit code — any non-zero `returncode` is a
RUNTIME_ERROR (with the truncated stderr stored as both `output` and
`error`), a zero exit is a tentative ACCEPTED carrying the truncated
stdout. -/
def classifyCompleted (returncode : ℤ) (execution_time : ℚ) (memory_usage : ℕ)
    (stdout stderr : String) : ExecutionResult :=
  let stdout_str := truncate_output stdout
  let stderr_str := truncate_output stderr
  if returncode ≠ 0 then
    { status := JudgeStatus.runtime_error, execution_time := execution_time,
      memory_usage := memory_usage, output := stderr_str, error := stderr_str }
  else
    { status := JudgeStatus.accepted, execution_time := execution_time,
      memory_usage := memory_usage, output := stdout_str, error := stderr_str }

/-- The `asyncio.TimeoutError` branch of `_execute_with_limits`
(`app/services/executor.py` lines 152-168): the process is killed and a
TIME_LIMIT_EXCEEDED result is returned, reporting the full time limit
(in milliseconds) as the execution time. -/
def timeoutResult (time_limit_sec : ℚ) (memory_usage : ℕ) : ExecutionResult :=
  { status := JudgeStatus.time_limit_exceeded,
    execution_time := time_limit_sec * 1000,
    memory_usage := memory_usage, output := "", error := "Time limit exceeded" }

/- ------------------------------------------------------------------ -/
/- Judge pipeline aggregation (`app/services/judge.py` lines 142-202). -/
/- ------------------------------------------------------------------ -/

/-- The per-case status after output comparison (`app/services/judge.py`
lines 152-161): a tentative ACCEPTED becomes WRONG_ANSWER when the
normalized actual output differs from the normalized expected output;
every other executor status is kept. -/
def comparedStatus (tc : JudgeTestCase) (r : ExecutionResult) : JudgeStatus :=
  if r.status = JudgeStatus.accepted then
    if _normalize_output r.output ≠ _normalize_output tc.expected then
      JudgeStatus.wrong_answer
    else JudgeStatus.accepted
  else r.status

/-- The `TestCaseResult` appended for a failing case
(`app/services/judge.py` lines 182-191): the error message (when the
executor recorded one), expected output and actual output are all pushed
through `truncate_output`. -/
def mkTestCaseResult (status : JudgeStatus) (tc : JudgeTestCase)
    (r : ExecutionResult) : TestCaseResult :=
  { status := status, execution_time := some r.execution_time,
    memory_usage := some r.memory_usage,
    error_message := if r.error ≠ "" then some (truncate_output r.error) else none,
    expected_output := some (truncate_output tc.expected),
    actual_output := some (truncate_output r.output) }

/-- The mutable state of the result-processing loop of
`process_judge_task_direct` (`app/services/judge.py` lines 142-146). -/
structure AggState where
  test_case_results : List TestCaseResult
  max_execution_time : ℚ
  max_memory_usage : ℕ
  overall_status : JudgeStatus
  passed_cases : ℕ
deriving DecidableEq, Repr

/-- One iteration of the loop over `zip(request.test_cases,
execution_results)` (`app/services/judge.py` lines 149-191): compare the
output, count a pass, track maxima, lower the overall status by the
`STATUS_PRIORITY` order, and append up to `MAX_TEST_CASE_RESULTS`
failing-case records. -/
def aggStep (st : AggState) (tc : JudgeTestCase) (r : ExecutionResult) : AggState :=
  let resStatus := comparedStatus tc r
  let passed :=
    if r.status = JudgeStatus.accepted ∧
        _normalize_output r.output = _normalize_output tc.expected then
      st.passed_cases + 1
    else st.passed_cases
  let met := max st.max_execution_time r.execution_time
  let mmu := max st.max_memory_usage r.memory_usage
  let ov :=
    if resStatus ≠ JudgeStatus.accepted ∧
        statusPriorityGet resStatus 0 < statusPriorityGet st.overall_status 7 then
      resStatus
    else st.overall_status
  let tcr :=
    if resStatus ≠ JudgeStatus.accepted ∧
        st.test_case_results.length < MAX_TEST_CASE_RESULTS then
      st.test_case_results ++ [mkTestCaseResult resStatus tc r]
    else st.test_case_results
  { test_case_results := tcr, max_execution_time := met, max_memory_usage := mmu,
    overall_status := ov, passed_cases := passed }

/-- The initial loop state (`test_case_results = []`,
`max_execution_time = 0`, `max_memory_usage = 0`,
`overall_status = ACCEPTED`, `passed_cases = 0`). -/
def initAggState : AggState :=
  { test_case_results := [], max_execution_time := 0, max_memory_usage := 0,
    overall_status := JudgeStatus.accepted, passed_cases := 0 }

/-- The whole result-processing loop, folded over the zipped test cases
and execution results. -/
def processCases (pairs : List (JudgeTestCase × ExecutionResult)) : AggState :=
  pairs.foldl (fun st p => aggStep st p.1 p.2) initAggState

/-- The final `JudgeResponse` built by `process_judge_task_direct`
(`app/services/judge.py` lines 196-202) on the path where compilation
succeeded and all executions ran: note that neither `error_message` nor
`metadata` is passed, so both keep their `None` defaults, and
`passed_cases` is only logged. -/
def judgeVerdict (request : Submission) (results : List ExecutionResult)
    (task_id : Option String) : JudgeResult :=
  let st := processCases (request.test_cases.zip results)
  { status := st.overall_status, execution_time := some st.max_execution_time,
    memory_usage := some st.max_memory_usage, error_message := none,
    test_case_results := some st.test_case_results, task_id := task_id,
    metadata := none }

/- ------------------------------------------------------------------ -/
/- HTTP rendezvous timeout branch                                      -/
/- (`app/api/v1/endpoints/judge.py` lines 41-73).                      -/
/- ------------------------------------------------------------------ -/

/-- The branch of `create_judge_task` taken when `blpop` on the per-task
results list returns `None` after `MAX_LATENCY` seconds: the task hash's
`status` field (decoded, `none` when the hash is missing or expired) is
inspected and a SYSTEM_ERROR verdict with a case-specific message is
returned. -/
def createJudgeTaskTimeout (task_id : String) (task_status : Option String) : JudgeResult :=
  if task_status = some JudgeStatus.pending.value then
    { status := JudgeStatus.system_error, execution_time := none, memory_usage := none,
      error_message := some ("Judge timeout after " ++ toString MAX_LATENCY
        ++ " seconds. Task still pending."),
      test_case_results := none, task_id := some task_id, metadata := none }
  else
    match task_status with
    | none =>
      { status := JudgeStatus.system_error, execution_time := none, memory_usage := none,
        error_message := some "Task information not found.",
        test_case_results := none, task_id := some task_id, metadata := none }
    | some s =>
      { status := JudgeStatus.system_error, execution_time := none, memory_usage := none,
        error_message := some ("Task was in status " ++ s
          ++ " but no result was available."),
        test_case_results := none, task_id := some task_id, metadata := none }

/- ------------------------------------------------------------------ -/
/- Lost-task recovery (`app/workers/manager.py` lines 14-57, mirrored   -/
/- by `TaskRecovery` in `app/workers/services.py` lines 173-209).      -/
/- ------------------------------------------------------------------ -/

/-- The fields of one task hash as read by the recovery scan: decoded
`status`, decoded `submitted_at` (read but never used in the decision),
and the optional `data` payload. -/
structure RedisTask where
  task_id : String
  status : Option String
  submitted_at : Option ℚ
  data : Option String
deriving DecidableEq, Repr

/-- What the recovery loop pushes to Redis for one recovered task. -/
inductive RecoveryAction where
  | requeue (data : String)
  | pushSystemError (task_id : String)
deriving DecidableEq, Repr

/-- The decision for one task hash in `recover_lost_tasks`
(`app/workers/manager.py` lines 33-52): a task is recovered exactly when
its `status` is PENDING and the submissions queue length is `0`; its
`data` is then requeued, or a SYSTEM_ERROR verdict is pushed onto its
results list when `data` is absent. -/
def recoverAction (queue_length : ℕ) (t : RedisTask) : Option RecoveryAction :=
  if t.status = some JudgeStatus.pending.value ∧ queue_length = 0 then
    match t.data with
    | some d => some (RecoveryAction.requeue d)
    | none => some (RecoveryAction.pushSystemError t.task_id)
  else none

/-- One run of `recover_lost_tasks` over the scanned task hashes: the
list of pushes performed. -/
def recover_lost_tasks (queue_length : ℕ) (tasks : List RedisTask) : List RecoveryAction :=
  tasks.filterMap (recoverAction queue_length)

/- ------------------------------------------------------------------ -/
/- Auxiliary definitions for the statements and proofs.                -/
/- ------------------------------------------------------------------ -/

/-- The overall-status update of one loop iteration
(`app/services/judge.py` lines 171-175), isolated: the overall status is
replaced by the case status exactly when the case failed and has a
strictly smaller `STATUS_PRIORITY` (with the dict-`get` defaults `0` and
`7` of the source). -/
def overallUpd (ov s : JudgeStatus) : JudgeStatus :=
  if s ≠ JudgeStatus.accepted ∧ statusPriorityGet s 0 < statusPriorityGet ov 7 then s
  else ov

/-- A concrete execution-mode submission whose two test cases both
pass (the shape of `test_execution_mode_accepted` in
`tests/test_judge.py`). -/
def execModeReq : Submission :=
  { code := "a, b = map(int, input().split())\nprint(a + b)",
    language := Language.python, mode := JudgeMode.execution,
    test_cases := [⟨"1 2", "3"⟩, ⟨"0 0", "0"⟩],
    time_limit := some 1, memory_limit := some 256,
    task_id := some "task-exec", entry_point := none, security_check := true }

/-- The executor results for `execModeReq`: both cases ran fine and
printed the expected sums. -/
def execModeResults : List ExecutionResult :=
  [⟨JudgeStatus.accepted, 1, 1, "3\n", ""⟩,
   ⟨JudgeStatus.accepted, 1, 1, "0\n", ""⟩]

/-- A concrete all-passing acm submission with a single test case. -/
def allPassReq : Submission :=
  { code := "a, b = map(int, input().split())\nprint(a + b)",
    language := Language.python, mode := JudgeMode.acm,
    test_cases := [⟨"1 2", "3"⟩],
    time_limit := some 1, memory_limit := some 256,
    task_id := some "task-pass", entry_point := none, security_check := true }

/-- The executor result for `allPassReq`: the single case passed. -/
def allPassResults : List ExecutionResult :=
  [⟨JudgeStatus.accepted, 1, 1, "3\n", ""⟩]

/- ================================================================== -/
/- Theorems.                                                           -/
/- ================================================================== -/

/- Basic facts about the severity table. -/

theorem statusPriorityGet_le_seven (s : JudgeStatus) :
    statusPriorityGet s 0 ≤ 7 := by
  cases s <;> decide

theorem statusPriorityGet_default_irrel (s : JudgeStatus) (h : isFinalStatus s = true)
    (d d' : Nat) : statusPriorityGet s d = statusPriorityGet s d' := by
  cases s <;> first | rfl | cases h

theorem final_eq_of_priority_eq {a b : JudgeStatus} (ha : isFinalStatus a = true)
    (hb : isFinalStatus b = true)
    (h : statusPriorityGet a 0 = statusPriorityGet b 0) : a = b := by
  cases a <;> cases b <;>
    first | rfl | exact absurd h (by decide) | cases ha

theorem accepted_of_final_of_priority_seven {s : JudgeStatus}
    (hs : isFinalStatus s = true) (h : 7 ≤ statusPriorityGet s 0) :
    s = JudgeStatus.accepted := by
  cases s <;> first | rfl | exact absurd h (by decide)

/- Facts about the overall-status update. -/

theorem overallUpd_mem (ov s : JudgeStatus) :
    overallUpd ov s = ov ∨ overallUpd ov s = s := by
  unfold overallUpd
  split
  · exact Or.inr rfl
  · exact Or.inl rfl

theorem overallUpd_final {ov s : JudgeStatus} (hov : isFinalStatus ov = true)
    (hs : isFinalStatus s = true) : isFinalStatus (overallUpd ov s) = true := by
  rcases overallUpd_mem ov s with h | h <;> rw [h] <;> assumption

theorem overallUpd_le_left {ov s : JudgeStatus} (hov : isFinalStatus ov = true) :
    statusPriorityGet (overallUpd ov s) 0 ≤ statusPriorityGet ov 0 := by
  unfold overallUpd
  split
  · next h =>
    have := h.2
    rw [statusPriorityGet_default_irrel ov hov 7 0] at this
    exact Nat.le_of_lt this
  · exact Nat.le_refl _

theorem overallUpd_le_right {ov s : JudgeStatus} (hov : isFinalStatus ov = true)
    (hs : isFinalStatus s = true) :
    statusPriorityGet (overallUpd ov s) 0 ≤ statusPriorityGet s 0 := by
  unfold overallUpd
  split
  · exact Nat.le_refl _
  · next h =>
    by_cases hacc : s = JudgeStatus.accepted
    · subst hacc
      exact statusPriorityGet_le_seven ov
    · have hlt : ¬ statusPriorityGet s 0 < statusPriorityGet ov 7 := fun hc => h ⟨hacc, hc⟩
      have hle := Nat.le_of_not_lt hlt
      rw [statusPriorityGet_default_irrel ov hov 7 0] at hle
      exact hle

theorem overallUpd_accepted (ov : JudgeStatus) :
    overallUpd ov JudgeStatus.accepted = ov := by
  unfold overallUpd
  simp

/- The overall status of the loop is the fold of `overallUpd` over the
compared per-case statuses. -/

theorem aggStep_overall_status (st : AggState) (tc : JudgeTestCase) (r : ExecutionResult) :
    (aggStep st tc r).overall_status = overallUpd st.overall_status (comparedStatus tc r) :=
  rfl

theorem foldl_aggStep_overall_status (pairs : List (JudgeTestCase × ExecutionResult))
    (st : AggState) :
    (pairs.foldl (fun st p => aggStep st p.1 p.2) st).overall_status
      = pairs.foldl (fun ov p => overallUpd ov (comparedStatus p.1 p.2)) st.overall_status := by
  induction pairs generalizing st with
  | nil => rfl
  | cons p t ih =>
    simp only [List.foldl_cons, ih, aggStep_overall_status]

/-- Invariant of the overall-status fold: starting from a final status and
folding final statuses, the result is final, is one of the inputs, and its
priority is a lower bound on all of their priorities. -/
theorem overallFold_spec (l : List (JudgeTestCase × ExecutionResult)) (acc : JudgeStatus)
    (hl : ∀ p ∈ l, isFinalStatus (comparedStatus p.1 p.2) = true)
    (hacc : isFinalStatus acc = true) :
    isFinalStatus (l.foldl (fun ov p => overallUpd ov (comparedStatus p.1 p.2)) acc) = true
    ∧ ((l.foldl (fun ov p => overallUpd ov (comparedStatus p.1 p.2)) acc) = acc
        ∨ ∃ p ∈ l, (l.foldl (fun ov p => overallUpd ov (comparedStatus p.1 p.2)) acc)
            = comparedStatus p.1 p.2)
    ∧ statusPriorityGet (l.foldl (fun ov p => overallUpd ov (comparedStatus p.1 p.2)) acc) 0
        ≤ statusPriorityGet acc 0
    ∧ ∀ p ∈ l,
        statusPriorityGet (l.foldl (fun ov p => overallUpd ov (comparedStatus p.1 p.2)) acc) 0
          ≤ statusPriorityGet (comparedStatus p.1 p.2) 0 := by
  induction l generalizing acc with
  | nil =>
    refine ⟨hacc, Or.inl rfl, Nat.le_refl _, ?_⟩
    intro p hp
    cases hp
  | cons q t ih =>
    have hq : isFinalStatus (comparedStatus q.1 q.2) = true := hl q (List.mem_cons_self q t)
    have ht : ∀ p ∈ t, isFinalStatus (comparedStatus p.1 p.2) = true :=
      fun p hp => hl p (List.mem_cons_of_mem q hp)
    have hupd : isFinalStatus (overallUpd acc (comparedStatus q.1 q.2)) = true :=
      overallUpd_final hacc hq
    obtain ⟨hfin, hmem, hle, hall⟩ := ih (overallUpd acc (comparedStatus q.1 q.2)) ht hupd
    simp only [List.foldl_cons]
    refine ⟨hfin, ?_, ?_, ?_⟩
    · rcases hmem with hmem | ⟨p, hp, hpe⟩
      · rcases overallUpd_mem acc (comparedStatus q.1 q.2) with h | h
        · exact Or.inl (hmem.trans h)
        · exact Or.inr ⟨q, List.mem_cons_self q t, hmem.trans h⟩
      · exact Or.inr ⟨p, List.mem_cons_of_mem q hp, hpe⟩
    · exact Nat.le_trans hle (overallUpd_le_left hacc)
    · intro p hp
      rcases List.mem_cons.mp hp with hpq | hpt
      · subst hpq
        exact Nat.le_trans hle (overallUpd_le_right hacc hq)
      · exact hall p hpt

/-- Folding only ACCEPTED statuses leaves the accumulator unchanged. -/
theorem overallFold_all_accepted (l : List (JudgeTestCase × ExecutionResult))
    (acc : JudgeStatus)
    (hl : ∀ p ∈ l, comparedStatus p.1 p.2 = JudgeStatus.accepted) :
    l.foldl (fun ov p => overallUpd ov (comparedStatus p.1 p.2)) acc = acc := by
  induction l generalizing acc with
  | nil => rfl
  | cons q t ih =>
    have hq := hl q (List.mem_cons_self q t)
    simp only [List.foldl_cons, hq, overallUpd_accepted]
    exact ih acc (fun p hp => hl p (List.mem_cons_of_mem q hp))

/-- Claim C1: in `process_judge_task_direct`, the overall verdict status
is the minimum, by the `STATUS_PRIORITY` severity order, of the per-case
statuses after output comparison: its priority is a lower bound on all
per-case priorities, it is attained by one of the cases whenever there is
any case, and if every case is ACCEPTED the verdict status is ACCEPTED.
(The hypothesis says every compared status is one of the seven statuses
listed in `STATUS_PRIORITY`, which is true of every status the executor
and the comparison step can produce.) -/
theorem overall_verdict_is_min_severity
    (tcs : List JudgeTestCase) (rs : List ExecutionResult)
    (hfin : ∀ p ∈ tcs.zip rs, isFinalStatus (comparedStatus p.1 p.2) = true) :
    ((∀ p ∈ tcs.zip rs, comparedStatus p.1 p.2 = JudgeStatus.accepted) →
      (processCases (tcs.zip rs)).overall_status = JudgeStatus.accepted)
    ∧ (∀ p ∈ tcs.zip rs,
        statusPriorityGet ((processCases (tcs.zip rs)).overall_status) 0
          ≤ statusPriorityGet (comparedStatus p.1 p.2) 0)
    ∧ (tcs.zip rs ≠ [] →
        ∃ p ∈ tcs.zip rs,
          (processCases (tcs.zip rs)).overall_status = comparedStatus p.1 p.2) := by
  have hrw : (processCases (tcs.zip rs)).overall_status
      = (tcs.zip rs).foldl (fun ov p => overallUpd ov (comparedStatus p.1 p.2))
          JudgeStatus.accepted :=
    foldl_aggStep_overall_status (tcs.zip rs) initAggState
  obtain ⟨hfinal, hmem, _, hall⟩ :=
    overallFold_spec (tcs.zip rs) JudgeStatus.accepted hfin rfl
  refine ⟨?_, ?_, ?_⟩
  · intro hacc
    rw [hrw]
    exact overallFold_all_accepted (tcs.zip rs) JudgeStatus.accepted hacc
  · intro p hp
    rw [hrw]
    exact hall p hp
  · intro hne
    rw [hrw]
    rcases hmem with hmem | hmem
    · -- the fold stayed ACCEPTED: the head case must itself be ACCEPTED
      rcases List.exists_mem_of_ne_nil _ hne with ⟨q, hq⟩
      have hq7 : 7 ≤ statusPriorityGet (comparedStatus q.1 q.2) 0 := by
        have := hall q hq
        rw [hmem] at this
        exact this
      have : comparedStatus q.1 q.2 = JudgeStatus.accepted :=
        accepted_of_final_of_priority_seven (hfin q hq) hq7
      exact ⟨q, hq, by rw [hmem, this]⟩
    · exact hmem

/-- Witness for C1 at a concrete submission: one TLE case and one
wrong-output case; the overall status has minimal severity and is attained. -/
theorem overall_verdict_is_min_severity_witness :
    statusPriorityGet
        ((processCases ([(⟨"a", "1"⟩ : JudgeTestCase), ⟨"b", "2"⟩].zip
          [(⟨JudgeStatus.time_limit_exceeded, 1000, 1, "", "Time limit exceeded"⟩ :
              ExecutionResult),
           ⟨JudgeStatus.accepted, 1, 1, "3\n", ""⟩])).overall_status) 0
      ≤ statusPriorityGet
          (comparedStatus ⟨"b", "2"⟩ ⟨JudgeStatus.accepted, 1, 1, "3\n", ""⟩) 0 :=
  (overall_verdict_is_min_severity
      [⟨"a", "1"⟩, ⟨"b", "2"⟩]
      [⟨JudgeStatus.time_limit_exceeded, 1000, 1, "", "Time limit exceeded"⟩,
       ⟨JudgeStatus.accepted, 1, 1, "3\n", ""⟩]
      (by decide)).2.1
    (⟨"b", "2"⟩, ⟨JudgeStatus.accepted, 1, 1, "3\n", ""⟩) (by decide)

/-- Claim C2: the spec says that in `execution` mode `test_case_results`
contains all test cases with full actual output.  The loop of
`process_judge_task_direct` has no mode branch at all: it only ever
appends failing cases.  At this execution-mode submission both of whose
cases pass (the situation of `test_execution_mode_accepted` in
`tests/test_judge.py`, which asserts `test_case_results[0].actual_output
== "3"`), the verdict is ACCEPTED but `test_case_results` is empty
instead of listing the two cases. -/
theorem execution_mode_accepted_cases_dropped :
    execModeReq.mode = JudgeMode.execution
    ∧ (judgeVerdict execModeReq execModeResults (some "task-exec")).status
        = JudgeStatus.accepted
    ∧ (judgeVerdict execModeReq execModeResults (some "task-exec")).test_case_results
        = some []
    ∧ execModeReq.test_cases.length = 2 := by
  refine ⟨rfl, ?_, ?_, rfl⟩ <;> decide

/-- Claim C3: the spec classifies a completed child by exit signal/code
(SIGSEGV/139 → MEMORY_LIMIT_EXCEEDED, SIGKILL/137 → TIME_LIMIT_EXCEEDED,
exit 1 + "AssertionError" → WRONG_ANSWER).  The completed-process branch
of `_execute_with_limits` has no such cases: every non-zero exit code is
RUNTIME_ERROR (and the repository's own tests
`test_acm_mode_memory_limit_exceeded` and `test_full_mode_wrong_answer`
expect the spec's classification).  Evaluated at the three exits the
claim singles out, plus the signal-style negative codes: -/
theorem nonzero_exit_always_runtime_error :
    (classifyCompleted 139 100 0 "" "Segmentation fault").status
        = JudgeStatus.runtime_error
    ∧ (classifyCompleted (-11) 100 0 "" "").status = JudgeStatus.runtime_error
    ∧ (classifyCompleted 137 100 0 "" "Killed").status = JudgeStatus.runtime_error
    ∧ (classifyCompleted (-9) 100 0 "" "").status = JudgeStatus.runtime_error
    ∧ (classifyCompleted 1 100 0 ""
        "AssertionError: assert candidate(1) == 2").status = JudgeStatus.runtime_error
    ∧ (classifyCompleted 0 100 0 "3\n" "").status = JudgeStatus.accepted := by
  refine ⟨?_, ?_, ?_, ?_, ?_, ?_⟩ <;> rfl

/-- Counterexample to claim C4: the `communicate` wait in
`_execute_with_limits` uses timeout `time_limit_sec * 1.5`, not
`time_limit + 1`: at a 4-second limit the timeout is 6 seconds, not 5. -/
theorem communicate_timeout_not_limit_plus_one :
    communicateTimeout 4 = 6 ∧ communicateTimeout 4 ≠ 4 + 1 := by
  constructor <;> norm_num [communicateTimeout]

/-- Claim C4 (amended): the executor waits on `communicate` with a
timeout of `1.5 ×` the time limit (strictly longer than the limit for any
positive limit), and on timeout kills the process and returns a
TIME_LIMIT_EXCEEDED result whose reported execution time is the full time
limit (in milliseconds). -/
theorem communicate_timeout_and_tle_result (t : ℚ) (mu : ℕ) :
    communicateTimeout t = t * (3 / 2)
    ∧ (0 < t → t < communicateTimeout t)
    ∧ (timeoutResult t mu).status = JudgeStatus.time_limit_exceeded
    ∧ (timeoutResult t mu).execution_time = t * 1000
    ∧ (timeoutResult t mu).error = "Time limit exceeded" := by
  refine ⟨rfl, ?_, rfl, rfl, rfl⟩
  intro ht
  unfold communicateTimeout
  nlinarith

/-- Witness for C4's amended theorem at a 4-second limit. -/
theorem communicate_timeout_and_tle_result_witness :
    (0 : ℚ) < 4 ∧ (4 : ℚ) < communicateTimeout 4 :=
  ⟨by norm_num, (communicate_timeout_and_tle_result 4 0).2.1 (by norm_num)⟩

/-- Counterexample to claim C7: a `Submission` constructed without
explicit limits gets `time_limit = 1` second and `memory_limit = 256` MB
(the field defaults of `app/models/schemas.py`), not 30 seconds and
4096 MB. -/
theorem submission_defaults_not_30s_4096mb :
    (Submission.withDefaults "print(1)" Language.python JudgeMode.acm [] "t7").time_limit
        ≠ some 30
    ∧ (Submission.withDefaults "print(1)" Language.python JudgeMode.acm [] "t7").memory_limit
        ≠ some 4096 := by
  decide

/-- Claim C7 (amended): a `Submission` constructed without explicit
limits defaults to `time_limit = 1` second and `memory_limit = 256` MB,
and both defaults are positive. -/
theorem submission_default_limits (code : String) (language : Language)
    (mode : JudgeMode) (test_cases : List JudgeTestCase) (task_id : String) :
    (Submission.withDefaults code language mode test_cases task_id).time_limit = some 1
    ∧ (Submission.withDefaults code language mode test_cases task_id).memory_limit = some 256
    ∧ (∀ v, (Submission.withDefaults code language mode test_cases task_id).time_limit
        = some v → 0 < v)
    ∧ (∀ v, (Submission.withDefaults code language mode test_cases task_id).memory_limit
        = some v → 0 < v) := by
  refine ⟨rfl, rfl, ?_, ?_⟩ <;> intro v hv <;> cases hv <;> decide

/-- Witness for C7's amended theorem at a concrete construction. -/
theorem submission_default_limits_witness :
    (Submission.withDefaults "print(1)" Language.python JudgeMode.acm [] "tw7").time_limit
        = some 1
    ∧ (0 : ℤ) < 1 :=
  ⟨(submission_default_limits "print(1)" Language.python JudgeMode.acm [] "tw7").1,
   (submission_default_limits "print(1)" Language.python JudgeMode.acm [] "tw7").2.2.1
     1 rfl⟩

/-- Counterexample to claim C9: `set_limits`, the `preexec_fn` applied to
every test-case child process, sets no data-segment (`RLIMIT_DATA`)
limit at all — only CPU, address-space, process-count and file-size
limits.  (The claimed address-space + data-segment pair exists only in
`reliability_guard`, which the leetcode in-process path uses.) -/
theorem set_limits_no_data_segment_limit :
    (set_limits 1 268435456).lookup Rlimit.dataSegment = none
    ∧ (reliability_guard 1 268435456).lookup Rlimit.dataSegment = some 268435456 := by
  decide

/-- Claim C9 (amended): for every test-case child, `set_limits` installs
CPU seconds = `int(time_limit) + 1`, address-space bytes = the memory
limit, process count = `MAX_PROCESSES` and max file size =
`MAX_OUTPUT_SIZE`, and installs no data-segment limit; the data-segment
limit equal to the memory limit is installed only by `reliability_guard`
(the leetcode-path pre-exec setup), which also installs all the other
claimed limits. -/
theorem set_limits_resource_limits (t : ℚ) (m : ℕ) :
    (set_limits t m).lookup Rlimit.cpu = some (pyInt t + 1)
    ∧ (set_limits t m).lookup Rlimit.addressSpace = some (m : ℤ)
    ∧ (set_limits t m).lookup Rlimit.nproc = some (MAX_PROCESSES : ℤ)
    ∧ (set_limits t m).lookup Rlimit.fsize = some (MAX_OUTPUT_SIZE : ℤ)
    ∧ (set_limits t m).lookup Rlimit.dataSegment = none
    ∧ (reliability_guard t m).lookup Rlimit.dataSegment = some (m : ℤ)
    ∧ (reliability_guard t m).lookup Rlimit.cpu = some (pyInt t + 1)
    ∧ (reliability_guard t m).lookup Rlimit.addressSpace = some (m : ℤ)
    ∧ (reliability_guard t m).lookup Rlimit.nproc = some (MAX_PROCESSES : ℤ)
    ∧ (reliability_guard t m).lookup Rlimit.fsize = some (MAX_OUTPUT_SIZE : ℤ) := by
  refine ⟨?_, ?_, ?_, ?_, ?_, ?_, ?_, ?_, ?_, ?_⟩ <;> rfl

/-- Counterexample to claim C5: the recovery loop has no time thresholds
at all.  A task whose hash has been PENDING since `submitted_at = 0`
(arbitrarily longer than 5 seconds) is left alone whenever the
submissions queue is nonempty, and a task RUNNING longer than
`MAX_TASK_EXECUTION_TIME` is never touched even with an empty queue. -/
theorem recovery_ignores_age_and_running_tasks :
    recover_lost_tasks 1 [⟨"t-old-pending", some "pending", some 0, some "payload"⟩] = []
    ∧ recover_lost_tasks 0 [⟨"t-old-running", some "running", some 0, some "payload"⟩]
        = [] := by
  decide

/-- Claim C5 (amended): on every run of the recovery loop, nothing is
recovered while the submissions queue is nonempty; when it is empty,
exactly the tasks whose status is PENDING (regardless of how long they
have been pending — `submitted_at` is read but unused) are recovered:
their `data` field is requeued, or a SYSTEM_ERROR verdict is pushed onto
their results list when `data` is absent.  RUNNING tasks are never
recovered. -/
theorem recovery_requeues_pending_only_when_queue_empty
    (queue_length : ℕ) (tasks : List RedisTask) :
    (queue_length ≠ 0 → recover_lost_tasks queue_length tasks = [])
    ∧ (∀ t ∈ tasks, t.status = some JudgeStatus.pending.value → queue_length = 0 →
        (∀ d, t.data = some d →
          RecoveryAction.requeue d ∈ recover_lost_tasks queue_length tasks)
        ∧ (t.data = none →
          RecoveryAction.pushSystemError t.task_id ∈ recover_lost_tasks queue_length tasks))
    ∧ (∀ a ∈ recover_lost_tasks queue_length tasks,
        queue_length = 0 ∧ ∃ t ∈ tasks, t.status = some JudgeStatus.pending.value ∧
          ((∃ d, t.data = some d ∧ a = RecoveryAction.requeue d)
            ∨ (t.data = none ∧ a = RecoveryAction.pushSystemError t.task_id))) := by
  refine ⟨?_, ?_, ?_⟩
  · intro h
    rw [recover_lost_tasks, List.filterMap_eq_nil_iff]
    intro t ht
    simp [recoverAction, h]
  · intro t ht hstat hql
    constructor
    · intro d hd
      rw [recover_lost_tasks, List.mem_filterMap]
      exact ⟨t, ht, by simp [recoverAction, hstat, hql, hd]⟩
    · intro hd
      rw [recover_lost_tasks, List.mem_filterMap]
      exact ⟨t, ht, by simp [recoverAction, hstat, hql, hd]⟩
  · intro a ha
    rw [recover_lost_tasks, List.mem_filterMap] at ha
    obtain ⟨t, ht, hf⟩ := ha
    rw [recoverAction] at hf
    by_cases hc : t.status = some JudgeStatus.pending.value ∧ queue_length = 0
    · rw [if_pos hc] at hf
      refine ⟨hc.2, t, ht, hc.1, ?_⟩
      cases hdata : t.data with
      | some d =>
        rw [hdata] at hf
        exact Or.inl ⟨d, rfl, (Option.some_injective _ hf).symm⟩
      | none =>
        rw [hdata] at hf
        exact Or.inr ⟨rfl, (Option.some_injective _ hf).symm⟩
    · rw [if_neg hc] at hf
      cases hf

/-- Witness for C5's amended theorem: with an empty queue, the pending
task's payload is requeued. -/
theorem recovery_requeues_pending_witness :
    RecoveryAction.requeue "payload"
      ∈ recover_lost_tasks 0 [⟨"t5", some "pending", some 0, some "payload"⟩] :=
  ((recovery_requeues_pending_only_when_queue_empty 0
        [⟨"t5", some "pending", some 0, some "payload"⟩]).2.1
      ⟨"t5", some "pending", some 0, some "payload"⟩ (by decide) rfl rfl).1 "payload" rfl

/-- Any string of the form built by the third timeout branch differs from
a fixed message whose first 19 characters are not "Task was in status ". -/
theorem task_status_msg_ne (s fixed : String)
    (hne : "Task was in status ".data
        ≠ fixed.data.take ("Task was in status ".data.length)) :
    "Task was in status " ++ s ++ " but no result was available." ≠ fixed := by
  intro h
  have hd := congrArg String.data h
  rw [String.data_append, String.data_append, List.append_assoc] at hd
  have ht := congrArg (List.take ("Task was in status ".data.length)) hd
  rw [List.take_left] at ht
  exact hne ht

/-- Claim C6: whenever the `/judge` handler's blocking pop on the
per-task results list times out, the returned verdict has status
SYSTEM_ERROR in all three cases (task still PENDING, task hash missing,
any other status), and the three cases carry pairwise distinct error
messages. -/
theorem rendezvous_timeout_always_system_error
    (task_id : String) (task_status : Option String) :
    (createJudgeTaskTimeout task_id task_status).status = JudgeStatus.system_error
    ∧ (createJudgeTaskTimeout task_id (some JudgeStatus.pending.value)).error_message
        ≠ (createJudgeTaskTimeout task_id none).error_message
    ∧ (∀ s, s ≠ JudgeStatus.pending.value →
        (createJudgeTaskTimeout task_id (some s)).error_message
            ≠ (createJudgeTaskTimeout task_id (some JudgeStatus.pending.value)).error_message
        ∧ (createJudgeTaskTimeout task_id (some s)).error_message
            ≠ (createJudgeTaskTimeout task_id none).error_message) := by
  have h1 : (createJudgeTaskTimeout task_id (some JudgeStatus.pending.value)).error_message
      = some ("Judge timeout after " ++ toString MAX_LATENCY
          ++ " seconds. Task still pending.") := by
    rw [createJudgeTaskTimeout.eq_def, if_pos rfl]
  have h2 : (createJudgeTaskTimeout task_id none).error_message
      = some "Task information not found." := by
    rw [createJudgeTaskTimeout.eq_def, if_neg (by simp)]
  refine ⟨?_, ?_, ?_⟩
  · rw [createJudgeTaskTimeout.eq_def]
    split
    · rfl
    · split <;> rfl
  · rw [h1, h2]
    decide
  · intro s hs
    have hb : (createJudgeTaskTimeout task_id (some s)).error_message
        = some ("Task was in status " ++ s ++ " but no result was available.") := by
      rw [createJudgeTaskTimeout.eq_def, if_neg (fun hc => hs (Option.some.inj hc))]
    rw [hb, h1, h2]
    constructor
    · simp only [ne_eq, Option.some.injEq]
      exact task_status_msg_ne s _ (by decide)
    · simp only [ne_eq, Option.some.injEq]
      exact task_status_msg_ne s _ (by decide)

/-- Witness for C6 at a concrete timed-out task whose hash reads
RUNNING. -/
theorem rendezvous_timeout_witness :
    (createJudgeTaskTimeout "t6" (some "running")).error_message
      ≠ (createJudgeTaskTimeout "t6" (some JudgeStatus.pending.value)).error_message :=
  ((rendezvous_timeout_always_system_error "t6" (some "running")).2.2
    "running" (by decide)).1

/-- When a case passed (executor ACCEPTED and normalized outputs equal),
one loop iteration leaves the overall status and `test_case_results`
unchanged and increments `passed_cases`. -/
theorem aggStep_of_pass (st : AggState) (tc : JudgeTestCase) (r : ExecutionResult)
    (hacc : r.status = JudgeStatus.accepted)
    (hout : _normalize_output r.output = _normalize_output tc.expected) :
    aggStep st tc r
      = { st with
          max_execution_time := max st.max_execution_time r.execution_time,
          max_memory_usage := max st.max_memory_usage r.memory_usage,
          passed_cases := st.passed_cases + 1 } := by
  have hcs : comparedStatus tc r = JudgeStatus.accepted := by
    rw [comparedStatus, if_pos hacc, if_neg (fun hc => hc hout)]
  rw [aggStep, hcs]
  simp [hacc, hout]

/-- Folding only passing cases keeps the overall status and the (empty)
failing-case list and counts every case as passed. -/
theorem foldl_aggStep_all_pass (pairs : List (JudgeTestCase × ExecutionResult))
    (st : AggState)
    (hall : ∀ p ∈ pairs, p.2.status = JudgeStatus.accepted ∧
      _normalize_output p.2.output = _normalize_output p.1.expected) :
    (pairs.foldl (fun st p => aggStep st p.1 p.2) st).overall_status = st.overall_status
    ∧ (pairs.foldl (fun st p => aggStep st p.1 p.2) st).test_case_results
        = st.test_case_results
    ∧ (pairs.foldl (fun st p => aggStep st p.1 p.2) st).passed_cases
        = st.passed_cases + pairs.length := by
  induction pairs generalizing st with
  | nil => exact ⟨rfl, rfl, rfl⟩
  | cons q t ih =>
    obtain ⟨hq1, hq2⟩ := hall q (List.mem_cons_self q t)
    have ht : ∀ p ∈ t, p.2.status = JudgeStatus.accepted ∧
        _normalize_output p.2.output = _normalize_output p.1.expected :=
      fun p hp => hall p (List.mem_cons_of_mem q hp)
    obtain ⟨ih1, ih2, ih3⟩ := ih (aggStep st q.1 q.2) ht
    have hstep := aggStep_of_pass st q.1 q.2 hq1 hq2
    simp only [List.foldl_cons]
    refine ⟨?_, ?_, ?_⟩
    · rw [ih1, hstep]
    · rw [ih2, hstep]
    · rw [ih3, hstep]
      simp only [List.length_cons]
      omega

/-- Claim C8 (amended): for every submission whose executions all exit
with tentative ACCEPTED and whose normalized outputs all equal the
normalized expected outputs, `process_judge_task_direct` returns a
verdict with status ACCEPTED and an empty failing-case list, and the
loop's `passed_cases` counter equals the number of test cases — but the
counter is only logged: the returned verdict's `metadata` is `None`
(no `passed`/`total` fields are populated). -/
theorem all_pass_accepted_but_no_metadata
    (req : Submission) (rs : List ExecutionResult) (tid : Option String)
    (hlen : rs.length = req.test_cases.length)
    (hall : ∀ p ∈ req.test_cases.zip rs, p.2.status = JudgeStatus.accepted ∧
      _normalize_output p.2.output = _normalize_output p.1.expected) :
    (judgeVerdict req rs tid).status = JudgeStatus.accepted
    ∧ (judgeVerdict req rs tid).test_case_results = some []
    ∧ (processCases (req.test_cases.zip rs)).passed_cases = req.test_cases.length
    ∧ (judgeVerdict req rs tid).metadata = none := by
  obtain ⟨h1, h2, h3⟩ := foldl_aggStep_all_pass (req.test_cases.zip rs) initAggState hall
  have hzlen : (req.test_cases.zip rs).length = req.test_cases.length := by
    rw [List.length_zip, hlen, Nat.min_self]
  refine ⟨?_, ?_, ?_, rfl⟩
  · show (processCases (req.test_cases.zip rs)).overall_status = JudgeStatus.accepted
    rw [processCases, h1]
    rfl
  · show some (processCases (req.test_cases.zip rs)).test_case_results = some []
    rw [processCases, h2]
    rfl
  · rw [processCases, h3, hzlen]
    simp [initAggState]

/-- Witness for C8's amended theorem at `allPassReq`. -/
theorem all_pass_accepted_but_no_metadata_witness :
    (judgeVerdict allPassReq allPassResults (some "task-pass")).status
        = JudgeStatus.accepted
    ∧ (judgeVerdict allPassReq allPassResults (some "task-pass")).metadata = none :=
  ⟨(all_pass_accepted_but_no_metadata allPassReq allPassResults (some "task-pass")
      rfl (by decide)).1,
   (all_pass_accepted_but_no_metadata allPassReq allPassResults (some "task-pass")
      rfl (by decide)).2.2.2⟩

/-- Counterexample to claim C8 as stated: at this all-passing one-case
submission the verdict status is ACCEPTED, but the verdict carries no
metadata at all — in particular not `passed = total = 1` as the claim
asserts. -/
theorem all_pass_metadata_missing :
    (judgeVerdict allPassReq allPassResults (some "task-pass")).status
        = JudgeStatus.accepted
    ∧ (judgeVerdict allPassReq allPassResults (some "task-pass")).metadata = none
    ∧ (judgeVerdict allPassReq allPassResults (some "task-pass")).metadata
        ≠ some { passed := 1, total := 1 } := by
  refine ⟨?_, rfl, ?_⟩ <;> decide

/-- The `test_case_results` component of one loop iteration, isolated. -/
theorem aggStep_results (st : AggState) (tc : JudgeTestCase) (r : ExecutionResult) :
    (aggStep st tc r).test_case_results
      = if comparedStatus tc r ≠ JudgeStatus.accepted
            ∧ st.test_case_results.length < MAX_TEST_CASE_RESULTS then
          st.test_case_results ++ [mkTestCaseResult (comparedStatus tc r) tc r]
        else st.test_case_results :=
  rfl

/-- Every record in the accumulated `test_case_results` either was already
there or is the failing-case record of one of the processed pairs. -/
theorem foldl_aggStep_results_mem
    (pairs : List (JudgeTestCase × ExecutionResult)) (st : AggState)
    (res : TestCaseResult)
    (hres : res ∈ (pairs.foldl (fun st p => aggStep st p.1 p.2) st).test_case_results) :
    res ∈ st.test_case_results
    ∨ ∃ p ∈ pairs, res = mkTestCaseResult (comparedStatus p.1 p.2) p.1 p.2 := by
  induction pairs generalizing st with
  | nil => exact Or.inl hres
  | cons q t ih =>
    simp only [List.foldl_cons] at hres
    rcases ih (aggStep st q.1 q.2) hres with hmem | ⟨p, hp, hpe⟩
    · rw [aggStep_results] at hmem
      by_cases hc : comparedStatus q.1 q.2 ≠ JudgeStatus.accepted
          ∧ st.test_case_results.length < MAX_TEST_CASE_RESULTS
      · rw [if_pos hc, List.mem_append] at hmem
        rcases hmem with hmem | hmem
        · exact Or.inl hmem
        · exact Or.inr ⟨q, List.mem_cons_self q t, by simpa using hmem⟩
      · rw [if_neg hc] at hmem
        exact Or.inl hmem
    · exact Or.inr ⟨p, List.mem_cons_of_mem q hp, hpe⟩

/-- Claim C10: `truncate_output` returns strings of length ≤ 256
unchanged, and otherwise keeps the first 128 characters, the marker
`"[... truncated ...]"` and the last 128 characters (total length 275);
the executor stores the truncation of the captured stdout/stderr in every
completed execution result, and every failing `TestCaseResult` of the
verdict stores truncations of the expected output, the actual output and
(when an error was recorded) the error message. -/
theorem truncation_behavior_and_sites
    (s t out err : String) (rc : ℤ) (et : ℚ) (mu : ℕ)
    (pairs : List (JudgeTestCase × ExecutionResult)) :
    (s.length ≤ 256 → truncate_output s = s)
    ∧ (256 < t.length →
        truncate_output t
          = String.mk (t.data.take 128) ++ "[... truncated ...]"
              ++ String.mk (t.data.drop (t.data.length - 128))
          ∧ (truncate_output t).length = 275)
    ∧ (classifyCompleted rc et mu out err).error = truncate_output err
    ∧ (rc = 0 → (classifyCompleted rc et mu out err).output = truncate_output out)
    ∧ (rc ≠ 0 → (classifyCompleted rc et mu out err).output = truncate_output err)
    ∧ (∀ res ∈ (processCases pairs).test_case_results,
        ∃ p ∈ pairs,
          res.expected_output = some (truncate_output p.1.expected)
          ∧ res.actual_output = some (truncate_output p.2.output)
          ∧ (res.error_message = none
              ∨ res.error_message = some (truncate_output p.2.error))) := by
  have hdata : ∀ u : String, u.data.length = u.length := fun _ => rfl
  refine ⟨?_, ?_, ?_, ?_, ?_, ?_⟩
  · intro h
    rw [truncate_output, if_pos h]
  · intro h
    have hrw : truncate_output t
        = String.mk (t.data.take 128) ++ "[... truncated ...]"
            ++ String.mk (t.data.drop (t.data.length - 128)) := by
      rw [truncate_output, if_neg (by omega)]
    refine ⟨hrw, ?_⟩
    have h1 : (String.mk (t.data.take 128)).length = 128 := by
      show (t.data.take 128).length = 128
      rw [List.length_take]
      have := hdata t
      omega
    have h2 : (String.mk (t.data.drop (t.data.length - 128))).length = 128 := by
      show (t.data.drop (t.data.length - 128)).length = 128
      rw [List.length_drop]
      have := hdata t
      omega
    have h3 : ("[... truncated ...]" : String).length = 19 := rfl
    rw [hrw, String.length_append, String.length_append, h1, h2, h3]
  · simp only [classifyCompleted]
    split <;> rfl
  · intro h
    subst h
    simp [classifyCompleted]
  · intro h
    simp only [classifyCompleted]
    rw [if_pos h]
  · intro res hres
    rcases foldl_aggStep_results_mem pairs initAggState res hres with hmem | ⟨p, hp, hpe⟩
    · simp [initAggState] at hmem
    · refine ⟨p, hp, ?_, ?_, ?_⟩
      · rw [hpe]; rfl
      · rw [hpe]; rfl
      · rw [hpe]
        by_cases he : p.2.error = ""
        · exact Or.inl (by simp [mkTestCaseResult, he])
        · exact Or.inr (by simp [mkTestCaseResult, he])

/-- Witness for C10: a short string passes through unchanged, and a
300-character string truncates to length 275. -/
theorem truncation_behavior_and_sites_witness :
    truncate_output "short" = "short"
    ∧ (truncate_output (String.mk (List.replicate 300 'a'))).length = 275 :=
  ⟨(truncation_behavior_and_sites "short" "" "" "" 0 0 0 []).1 (by decide),
   ((truncation_behavior_and_sites "" (String.mk (List.replicate 300 'a'))
        "" "" 0 0 0 []).2.1
      (by show 256 < (List.replicate 300 'a').length
          rw [List.length_replicate]
          omega)).2⟩

end MiniJudge
